import Mathlib

/-!
Verification development for the eduplatform repository.

The Python source is shallowly embedded: datetimes are modelled as `Int`
timestamps, times of day as `Nat` minutes since midnight (the source stores
times as zero-padded "HH:MM" strings, whose lexicographic order coincides with
the numeric order, and parses them back before every comparison), and Python
floats as `ℚ` (the values manipulated by the covered operations are exact
decimals, so no rounding behaviour is lost).  Python dicts keyed by strings are
modelled as insertion-ordered association lists, matching dict iteration order.
The non-deterministic values produced inside the constructors (the current
datetime and the hash-derived fresh ids) are passed in as explicit parameters;
the dynamic-typing failure of the id expressions themselves is modelled
separately by the `PyVal` fragment below.
-/

namespace EduPlatform

/-! ### A fragment of Python dynamic semantics

Only what the id-generation expressions of `assignment.py` line 43,
`grade.py` line 38 and `schedule.py` line 31 touch: `len` of a value,
slicing a value with a negative start, and `max` of a single float.
-/

/-- Python runtime errors raised by the embedded fragment. -/
inductive PyError where
  | typeError
  | valueError
deriving DecidableEq, Repr

/-- Python runtime values appearing in the embedded id expressions. -/
inductive PyVal where
  | int : Int → PyVal
  | str : String → PyVal
deriving DecidableEq, Repr

/-- Python `str(v)` for the values of the fragment. -/
def pyStr : PyVal → PyVal
  | .int n => .str (toString n)
  | .str s => .str s

/-- Text carried by a `PyVal`, used when a value is interpolated into an f-string. -/
def pyValText : PyVal → String
  | .int n => toString n
  | .str s => s

/-- Python `len(v)`: defined on strings, raises `TypeError` on an `int`
("object of type int has no len()"). -/
def pyLen : PyVal → Except PyError PyVal
  | .str s => .ok (.int s.length)
  | .int _ => .error .typeError

/-- Python `v[i:]` with an arbitrary integer start: defined on strings
(negative indices count from the end), raises `TypeError` on an `int`
("int object is not subscriptable"). -/
def pySliceFrom : PyVal → Int → Except PyError PyVal
  | .str s, i =>
      let n : Int := s.length
      let start : Int := if i < 0 then max 0 (n + i) else min i n
      .ok (.str (String.mk (s.data.drop start.toNat)))
  | .int _, _ => .error .typeError

/-- The id expression `len(str(hash(str(datetime.now()))))[-k:]` of the source
constructors, with the integer returned by `hash` supplied as `hashVal`:
`str` of the hash is a string, `len` of it is an `int`, and slicing that `int`
raises `TypeError`. -/
def hashIdExpr (hashVal : Int) (k : Int) : Except PyError PyVal := do
  let n ← pyLen (pyStr (.int hashVal))
  pySliceFrom n k

/-- Python `max(x)` applied to a single float argument, as in
`max(float(max_points))` at `assignment.py` line 51: a lone float is not
iterable, so the call raises `TypeError`. -/
def pyMaxSingleFloat (_ : ℚ) : Except PyError ℚ := .error .typeError

/-! ### Grade model (`models/grade.py`) -/

/-- Enum `GradeType`. -/
inductive GradeType where
  | assignment | exam | quiz | participation | project | homework
deriving DecidableEq, Repr

/-- Embeds `Grade._determine_category` (`grade.py` lines 52-58). -/
def determineCategory (t : GradeType) : String :=
  if t = .homework ∨ t = .assignment ∨ t = .project then "assignments"
  else if t = .quiz ∨ t = .exam then "assessments"
  else "other"

/-- The fields of a `Grade` object (`grade.py` lines 38-50). -/
structure Grade where
  id : String
  student_id : String
  subject : String
  type : GradeType
  score : ℚ
  max_score : ℚ
  assignment_id : Option String
  teacher_id : Option String
  comments : String
  created_at : Int
  updated_at : Int
  is_final : Bool
  category : String
deriving DecidableEq, Repr

/-- Embeds `Grade.__init__` (`grade.py` lines 17-50).  The id line
`f"grade_{len(str(hash(str(datetime.now()))))[-8:]}"` is evaluated first;
slicing the `int` returned by `len` raises `TypeError`, so the remaining
field assignments are never reached. -/
def Grade.pyInit (hashVal now : Int) (student_id subject : String) (gtype : GradeType)
    (score max_score : ℚ) (assignment_id teacher_id : Option String)
    (comments : String) : Except PyError Grade := do
  let idv ← hashIdExpr hashVal (-8)
  .ok { id := "grade_" ++ pyValText idv, student_id, subject, type := gtype,
        score, max_score, assignment_id, teacher_id, comments,
        created_at := now, updated_at := now, is_final := false,
        category := determineCategory gtype }

/-- Embeds `Grade.percentage` (`grade.py` lines 61-65). -/
def Grade.percentage (g : Grade) : ℚ :=
  if g.max_score = 0 then 0 else g.score / g.max_score * 100

/-- Embeds `Grade.update_grade` (`grade.py` lines 96-119): the model-level update.
`new_comments`, when given and when comments are already present, is appended
after a `"\n---\n"` separator; `updated_at` is set to the current time. -/
def Grade.update_grade (now : Int) (new_score : Option ℚ) (new_comments : Option String)
    (new_is_final : Option Bool) (g : Grade) : Grade :=
  let g1 := match new_score with
    | some s => { g with score := s }
    | none => g
  let g2 := match new_comments with
    | some c => if g1.comments ≠ "" then { g1 with comments := g1.comments ++ "\n---\n" ++ c }
                else { g1 with comments := c }
    | none => g1
  let g3 := match new_is_final with
    | some b => { g2 with is_final := b }
    | none => g2
  { g3 with updated_at := now }

/-- Number of `"\n---\n"`-separated segments that make up a stored comment
string (0 for the empty string). -/
def sepCount : List Char → Nat
  | '\n' :: '-' :: '-' :: '-' :: '\n' :: rest => 1 + sepCount rest
  | _ :: rest => sepCount rest
  | [] => 0

/-- Comment-history length: the number of separator-delimited entries. -/
def commentSegments (s : String) : Nat :=
  if s = "" then 0 else sepCount s.data + 1

/-! ### Assignment model (`models/assignment.py`) -/

/-- Enum `AssignmentStatus`. -/
inductive AssignmentStatus where
  | draft | published | in_progress | submitted | graded | overdue | cancelled
deriving DecidableEq, Repr

/-- Enum `AssignmentDifficulty`. -/
inductive AssignmentDifficulty where
  | easy | medium | hard
deriving DecidableEq, Repr

/-- The `status` field of a submission dict: the source only ever writes the
strings "submitted" (on `add_submission`) and "graded" (on `grade_submission`). -/
inductive SubmissionStatus where
  | submitted | graded
deriving DecidableEq, Repr

/-- A submission dict as written by `add_submission` / `grade_submission`
(`assignment.py` lines 115-122 and 151-155). -/
structure Submission where
  content : String
  submitted_at : Int
  attachments : List String
  status : SubmissionStatus
  grade : Option ℚ
  feedback : Option String
deriving DecidableEq, Repr

/-- A grade dict as written by `grade_submission` (`assignment.py` lines 144-149). -/
structure GradeOutcome where
  grade : ℚ
  feedback : String
  graded_at : Int
  graded_by : String
deriving DecidableEq, Repr

/-- The fields of an `Assignment` object (`assignment.py` lines 43-56).
`submissions` and `grades` model the student-keyed dicts as insertion-ordered
association lists. -/
structure Assignment where
  id : String
  title : String
  description : String
  subject : String
  teacher_id : String
  class_id : String
  created_at : Int
  due_date : Int
  max_points : ℚ
  difficulty : AssignmentDifficulty
  status : AssignmentStatus
  submissions : List (String × Submission)
  grades : List (String × GradeOutcome)
  attachments : List String
deriving DecidableEq, Repr

/-- Embeds `Assignment.__init__` (`assignment.py` lines 22-56).  Line 43 computes the
id by slicing the `int` returned by `len`, raising `TypeError`; line 51 would
additionally raise `TypeError` by calling `max` on a single float. -/
def Assignment.pyInit (hashVal now : Int) (title description subject teacher_id class_id : String)
    (due_date : Option Int) (max_points : ℚ) (difficulty : AssignmentDifficulty) :
    Except PyError Assignment := do
  let idv ← hashIdExpr hashVal (-6)
  let mp ← pyMaxSingleFloat max_points
  .ok { id := "assgn_" ++ pyValText idv, title, description, subject, teacher_id, class_id,
        created_at := now, due_date := due_date.getD (now + 7 * 86400), max_points := mp,
        difficulty, status := .draft, submissions := [], grades := [], attachments := [] }

/-- Python dict assignment `d[k] = v` on an insertion-ordered association list:
an existing key keeps its position, a new key is appended. -/
def setEntry {β : Type} (l : List (String × β)) (k : String) (v : β) : List (String × β) :=
  if l.any (fun p => p.1 = k) then l.map (fun p => if p.1 = k then (k, v) else p)
  else l ++ [(k, v)]

/-- The test at line 79 and 82: some stored submission has a status other than graded. -/
def anyUngraded (a : Assignment) : Bool :=
  a.submissions.any fun p => p.2.status != .graded

/-- The test at line 85: every stored submission has status graded. -/
def allGraded (a : Assignment) : Bool :=
  a.submissions.all fun p => p.2.status == .graded

/-- Embeds `Assignment._update_status` (`assignment.py` lines 74-89): the derived
status, recomputed from the clock, the due date, the submissions map and the
previously stored status. -/
def updateStatus (now : Int) (a : Assignment) : Assignment :=
  if now > a.due_date ∧ anyUngraded a then { a with status := .overdue }
  else if a.submissions ≠ [] ∧ anyUngraded a then { a with status := .submitted }
  else if a.submissions ≠ [] ∧ allGraded a then { a with status := .graded }
  else if a.status = .published then { a with status := .in_progress }
  else a

/-- Embeds `Assignment.publish` (`assignment.py` lines 91-96). -/
def publish (a : Assignment) : Bool × Assignment :=
  if a.status = .draft then (true, { a with status := .published })
  else (false, a)

/-- Embeds `Assignment.add_submission` (`assignment.py` lines 98-125).  The current
datetime is passed as `now`. -/
def add_submission (now : Int) (student_id content : String) (attachments : List String)
    (a : Assignment) : Bool × Assignment :=
  if a.status = .draft then (false, a)
  else if (a.submissions.lookup student_id).isSome then (false, a)
  else
    let sub : Submission := { content, submitted_at := now, attachments,
                              status := .submitted, grade := none, feedback := none }
    (true, updateStatus now { a with submissions := a.submissions ++ [(student_id, sub)] })

/-- Embeds `Assignment.grade_submission` (`assignment.py` lines 127-158). -/
def grade_submission (now : Int) (student_id : String) (grade : ℚ) (feedback : String)
    (a : Assignment) : Bool × Assignment :=
  if (a.submissions.lookup student_id).isNone then (false, a)
  else
    let g := max 0 (min grade a.max_points)
    let outcome : GradeOutcome := { grade := g, feedback, graded_at := now, graded_by := a.teacher_id }
    let subs := a.submissions.map fun p =>
      if p.1 = student_id then
        (p.1, { p.2 with status := .graded, grade := some g, feedback := some feedback })
      else p
    (true, updateStatus now { a with grades := setEntry a.grades student_id outcome,
                                     submissions := subs })

/-! ### Schedule model (`models/schedule.py`) -/

/-- Enum `Weekday`. -/
inductive Weekday where
  | monday | tuesday | wednesday | thursday | friday | saturday | sunday
deriving DecidableEq, Repr

/-- A session dict (`schedule.py` lines 67-76), with "HH:MM" times as minutes. -/
structure Session where
  id : String
  subject : String
  teacher_id : String
  start_time : Nat
  end_time : Nat
  room : String
  recurring : Bool
  created_at : Int
deriving DecidableEq, Repr

/-- The fields of a `Schedule` object (`schedule.py` lines 31-40); `sessions`
models the per-weekday dict `self._schedule`. -/
structure Schedule where
  id : String
  class_id : String
  start_date : Int
  end_date : Int
  type : String
  sessions : Weekday → List Session
  last_updated : Int

/-- Embeds `Schedule.__init__` (`schedule.py` lines 18-40): line 31 computes the id by
slicing the `int` returned by `len`, raising `TypeError`. -/
def Schedule.pyInit (hashVal now : Int) (class_id : String) (start_date end_date : Int)
    (schedule_type : String) : Except PyError Schedule := do
  let idv ← hashIdExpr hashVal (-8)
  .ok { id := "sched_" ++ pyValText idv, class_id, start_date, end_date,
        type := schedule_type, sessions := fun _ => [], last_updated := now }

/-- Python truthiness of an optional string argument (`if teacher_id and ...`):
`None` and the empty string are falsy. -/
def strTruthy : Option String → Bool
  | none => false
  | some s => s ≠ ""

/-- Embeds `Schedule._has_conflict` (`schedule.py` lines 82-114): scans the given
sessions of the given weekday, skipping an excluded session id, and reports a conflict
when a session of the same (truthy) teacher satisfies the half-open overlap
test `start_time < existing_end and end_time > existing_start`. -/
def Schedule.has_conflict (sched : Schedule) (day : Weekday) (start_time end_time : Nat)
    (teacher_id : Option String) (exclude_session_id : Option String) : Bool :=
  (sched.sessions day).any fun session =>
    if strTruthy exclude_session_id ∧ some session.id = exclude_session_id then false
    else if strTruthy teacher_id ∧ some session.teacher_id = teacher_id then
      decide (start_time < session.end_time ∧ end_time > session.start_time)
    else false

/-- Embeds `Schedule.add_class_session` (`schedule.py` lines 42-80).  On a
conflict the method returns False without touching anything.  Otherwise it
builds the session dict, whose id entry at line 68 evaluates
`len(str(hash(str(datetime.now()))))[-6:]` — slicing the `int` returned by
`len` raises `TypeError` before the append at line 78, so the non-conflict
path always raises and never stores a session.  The integer returned by the
nondeterministic `hash` call and the current datetime are parameters. -/
def Schedule.add_class_session (hashVal now : Int)
    (subject teacher_id : String) (day : Weekday) (start_time end_time : Nat)
    (room : String) (recurring : Bool) (sched : Schedule) :
    Except PyError (Bool × Schedule) :=
  if sched.has_conflict day start_time end_time (some teacher_id) none then
    .ok (false, sched)
  else do
    let idv ← hashIdExpr hashVal (-6)
    let session : Session := { id := "sess_" ++ pyValText idv, subject, teacher_id,
                               start_time, end_time, room, recurring, created_at := now }
    .ok (true, { sched with
                   sessions := fun d => if d = day then sched.sessions d ++ [session]
                                        else sched.sessions d,
                   last_updated := now })

/-! ### Grade repository (`repositories/grade_repository.py`) -/

/-- The sort relation of `sorted(grades, key=lambda x: x._created_at, reverse=True)`:
descending creation time.  the Python sort is stable, as is `List.insertionSort`. -/
def byCreatedDesc (a b : Grade) : Prop := b.created_at ≤ a.created_at

instance : DecidableRel byCreatedDesc :=
  fun a b => inferInstanceAs (Decidable (b.created_at ≤ a.created_at))

instance : IsTotal Grade byCreatedDesc := ⟨fun a b => le_total b.created_at a.created_at⟩

instance : IsTrans Grade byCreatedDesc := ⟨fun _ _ _ h1 h2 => le_trans h2 h1⟩

/-- Embeds `GradeRepository.get_student_grades` (`grade_repository.py` lines 13-26):
filter the store to the student (optionally to a subject and grade type), then
sort by creation time, newest first. -/
def GradeRepository.get_student_grades (repo : List Grade) (student_id : String)
    (subject : Option String) (grade_type : Option GradeType) : List Grade :=
  let gs := repo.filter fun g => g.student_id = student_id
  let gs := match subject with
    | some subj => gs.filter fun g => g.subject.toLower = subj.toLower
    | none => gs
  let gs := match grade_type with
    | some t => gs.filter fun g => g.type = t
    | none => gs
  List.insertionSort byCreatedDesc gs

/-- The trend component of `GradeRepository.get_student_progress`
(`grade_repository.py` lines 94-152, trend computed at lines 126-133):
`none` models the empty dict returned when the student has no grades;
`percentages` is ordered newest first, so index 0 is the newest record and the
last index is the oldest. -/
def GradeRepository.studentProgressTrend (repo : List Grade) (student_id : String)
    (subject : Option String) : Option String :=
  let grades := GradeRepository.get_student_grades repo student_id subject none
  if grades = [] then none
  else
    let percentages := grades.map Grade.percentage
    some (if grades.length ≥ 2 then
            if percentages.headD 0 > percentages.getLastD 0 + 5 then "decreasing"
            else if percentages.getLastD 0 > percentages.headD 0 + 5 then "increasing"
            else "stable"
          else "stable")

/-! ### Grade service (`services/grade_service.py`)

The notification side calls (`_notify_grade_recorded`, `_notify_grade_updated`)
are external collaborators and do not touch the grade store; they are omitted.
-/

/-- Result of `record_grade`: `validationError` is the explicit `ValueError`
of the score check, `raised` an exception propagated from a callee
(`Grade.__init__` raises `TypeError`), `keyExists` the `ValueError` of
`BaseRepository.add` on a duplicate key, `ok` a stored grade. -/
inductive RecordResult where
  | validationError
  | raised (e : PyError)
  | keyExists
  | ok (g : Grade)
deriving DecidableEq, Repr

/-- Embeds `GradeService.record_grade` (`grade_service.py` lines 24-75):
validates `score < 0 or score > max_score` (line 51), then calls
`Grade(...)` — whose id line always raises `TypeError` (see `Grade.pyInit`) —
and only then `BaseRepository.add`, which raises on a duplicate key.  The
integer returned by the nondeterministic `hash` call and the current datetime
are parameters; the call is modelled for a `GradeType`-typed `grade_type`
argument. -/
def GradeService.record_grade (hashVal now : Int) (student_id subject : String)
    (gtype : GradeType) (score : ℚ) (teacher_id : String) (max_score : ℚ)
    (assignment_id : Option String) (comments : String) (repo : List Grade) :
    RecordResult × List Grade :=
  if score < 0 ∨ score > max_score then (.validationError, repo)
  else
    match Grade.pyInit hashVal now student_id subject gtype score max_score
        assignment_id (some teacher_id) comments with
    | .error e => (.raised e, repo)
    | .ok g =>
      if repo.any (fun x => x.id = g.id) then (.keyExists, repo)
      else (.ok g, repo ++ [g])

/-- Python object identity inside the repository: the service mutates the
stored `Grade` object in place, so the store always holds the current field
values of the object found under `id`. -/
def setGrade (repo : List Grade) (id : String) (g : Grade) : List Grade :=
  repo.map fun x => if x.id = id then g else x

/-- Outcome of `GradeService.update_grade`: `notFound` models the `None`
return, `validationError` a `ValueError` raise, `ok` the returned grade. -/
inductive UpdateOutcome where
  | notFound
  | validationError
  | ok (g : Grade)
deriving DecidableEq, Repr

/-- Tail of `GradeService.update_grade` after the two validation blocks
(`grade_service.py` lines 167-178): replace the comments outright when
provided, stamp `updated_at`, store, and return the grade. -/
def GradeService.updateGradeFinish (now : Int) (grade_id : String) (comments : Option String)
    (g : Grade) (repo : List Grade) : UpdateOutcome × List Grade :=
  let g3 := match comments with
    | some c => { g with comments := c }
    | none => g
  let g4 := { g3 with updated_at := now }
  (.ok g4, setGrade repo grade_id g4)

/-- The `max_score` block of `GradeService.update_grade` (`grade_service.py`
lines 160-165).  `g` is the stored object, already mutated by the score block;
a raise here leaves that prior mutation in place. -/
def GradeService.updateGradeMaxBlock (now : Int) (grade_id : String) (score : Option ℚ)
    (max_score : Option ℚ) (comments : Option String) (g : Grade) (repo : List Grade) :
    UpdateOutcome × List Grade :=
  match max_score with
  | some m =>
    if m ≤ 0 then (.validationError, setGrade repo grade_id g)
    else
      match score with
      | some s =>
        if s > m then (.validationError, setGrade repo grade_id g)
        else GradeService.updateGradeFinish now grade_id comments { g with max_score := m } repo
      | none => GradeService.updateGradeFinish now grade_id comments { g with max_score := m } repo
  | none => GradeService.updateGradeFinish now grade_id comments g repo

/-- Embeds `GradeService.update_grade` (`grade_service.py` lines 131-178).  Returns
the outcome together with the final state of the store; a validation raise
surfaces as `.validationError` with the store reflecting any in-place
mutation already performed on the object. -/
def GradeService.update_grade (now : Int) (grade_id : String) (score max_score : Option ℚ)
    (comments : Option String) (repo : List Grade) : UpdateOutcome × List Grade :=
  match repo.find? (fun g => g.id = grade_id) with
  | none => (.notFound, repo)
  | some g0 =>
    match score with
    | some s =>
      let mx := max_score.getD g0.max_score
      if s < 0 ∨ s > mx then (.validationError, repo)
      else GradeService.updateGradeMaxBlock now grade_id (some s) max_score comments
             { g0 with score := s } repo
    | none => GradeService.updateGradeMaxBlock now grade_id none max_score comments g0 repo

/-! ### Schedule repository (`repositories/schedule_repository.py`) -/

/-- A conflict dict as produced by `get_conflicts`
(`schedule_repository.py` lines 250-258). -/
structure Conflict where
  class_id : String
  subject : String
  teacher_id : String
  existing_start : Nat
  existing_end : Nat
  conflict_start : Nat
  conflict_end : Nat
deriving DecidableEq, Repr

/-- Embeds `ScheduleRepository.get_conflicts` (`schedule_repository.py` lines 215-260):
across all stored schedules (skipping a truthy excluded class id), collect
every session of the teacher on the day whose interval fails the disjointness
test `end_time <= session_start or start_time >= session_end`. -/
def ScheduleRepository.get_conflicts (repo : List Schedule) (teacher_id : String)
    (day : Weekday) (start_time end_time : Nat) (exclude_class_id : Option String) :
    List Conflict :=
  repo.flatMap fun sched =>
    if strTruthy exclude_class_id ∧ some sched.class_id = exclude_class_id then []
    else
      (sched.sessions day).filterMap fun session =>
        if session.teacher_id = teacher_id then
          if ¬(end_time ≤ session.start_time ∨ start_time ≥ session.end_time) then
            some { class_id := sched.class_id, subject := session.subject, teacher_id,
                   existing_start := session.start_time, existing_end := session.end_time,
                   conflict_start := start_time, conflict_end := end_time }
          else none
        else none

/-- The slot-collection loop of `get_teacher_availability`
(`schedule_repository.py` lines 100-107): the (start, end) pairs of the
sessions of the teacher on the day, across all schedules, in store order. -/
def ScheduleRepository.teacherSlots (repo : List Schedule) (teacher_id : String)
    (day : Weekday) : List (Nat × Nat) :=
  repo.flatMap fun sched =>
    (sched.sessions day).filterMap fun session =>
      if session.teacher_id = teacher_id then some (session.start_time, session.end_time)
      else none

/-- Work window start, `time(8, 0)`, in minutes. -/
def work_start : Nat := 480

/-- Work window end, `time(17, 0)`, in minutes. -/
def work_end : Nat := 1020

/-- The cursor walk of `get_teacher_availability` (`schedule_repository.py`
lines 117-133): emit the gap before each scheduled slot whose start lies past
the cursor, advance the cursor to the end of the slot, and append the tail gap up
to the work-window end. -/
def availLoop : Nat → List (Nat × Nat) → List (Nat × Nat)
  | current, [] => if current < work_end then [(current, work_end)] else []
  | current, slot :: rest =>
    if current < slot.1 then (current, slot.1) :: availLoop slot.2 rest
    else availLoop slot.2 rest

/-- The sort relation used on scheduled slots at line 110: ascending start minute. -/
def bySlotStart (a b : Nat × Nat) : Prop := a.1 ≤ b.1

instance : DecidableRel bySlotStart := fun a b => inferInstanceAs (Decidable (a.1 ≤ b.1))

instance : IsTotal (Nat × Nat) bySlotStart := ⟨fun a b => Nat.le_total a.1 b.1⟩

instance : IsTrans (Nat × Nat) bySlotStart := ⟨fun _ _ _ h1 h2 => Nat.le_trans h1 h2⟩

/-- Embeds `ScheduleRepository.get_teacher_availability` (`schedule_repository.py`
lines 94-135): sort the booked slots of the teacher by start time and walk the
work window, returning the complementary gaps. -/
def ScheduleRepository.get_teacher_availability (repo : List Schedule) (teacher_id : String)
    (day : Weekday) : List (Nat × Nat) :=
  availLoop work_start
    (List.insertionSort bySlotStart (ScheduleRepository.teacherSlots repo teacher_id day))

/-! ### Concrete states used by witnesses and counterexamples -/

/-- A grade record with the given id, creation time, scores and comments. -/
def mkGrade (id : String) (created : Int) (score maxs : ℚ) (comments : String) : Grade :=
  { id, student_id := "s1", subject := "math", type := .exam, score, max_score := maxs,
    assignment_id := none, teacher_id := some "t1", comments, created_at := created,
    updated_at := created, is_final := false, category := determineCategory .exam }

/-- A submission with the given status. -/
def mkSub (st : SubmissionStatus) : Submission :=
  { content := "answer", submitted_at := 0, attachments := [], status := st,
    grade := none, feedback := none }

/-- A published assignment due at time 10 with one graded and one ungraded
submission. -/
def exMixed : Assignment :=
  { id := "a1", title := "HW", description := "", subject := "math", teacher_id := "t1",
    class_id := "c1", created_at := 0, due_date := 10, max_points := 100,
    difficulty := .medium, status := .published,
    submissions := [("s1", mkSub .graded), ("s2", mkSub .submitted)],
    grades := [], attachments := [] }

/-- A published assignment with no submissions yet. -/
def exPub : Assignment :=
  { exMixed with id := "a2", submissions := [] }

/-- A session on the given interval for the given teacher. -/
def mkSession (id teacher : String) (s e : Nat) : Session :=
  { id, subject := "math", teacher_id := teacher, start_time := s, end_time := e,
    room := "R1", recurring := true, created_at := 0 }

/-- A schedule whose Monday list is as given and whose other days are empty. -/
def mkSchedule (cid : String) (monday : List Session) : Schedule :=
  { id := "sched_" ++ cid, class_id := cid, start_date := 0, end_date := 100,
    type := "weekly", sessions := fun d => if d = .monday then monday else [],
    last_updated := 0 }

/-- The failing-input store for C4: one student with an older 50% exam
(created at time 1) and a newer 100% exam (created at time 2). -/
def c4Repo : List Grade := [mkGrade "g1" 1 50 100 "", mkGrade "g2" 2 100 100 ""]

/-- The per-day invariant: two sessions of the same nonempty teacher id never
have overlapping half-open intervals. -/
def teacherDisjoint (a b : Session) : Prop :=
  a.teacher_id = b.teacher_id → a.teacher_id ≠ "" →
    ¬(a.start_time < b.end_time ∧ a.end_time > b.start_time)

/-- A Monday schedule whose single session has the empty teacher id. -/
def c7Sched : Schedule := mkSchedule "c7" [mkSession "s1" "" 540 600]

/-- A Monday schedule with a 09:00-10:00 session for teacher T1. -/
def c7bSched : Schedule := mkSchedule "c7b" [mkSession "s1" "T1" 540 600]

/-- The schedule of class A: teacher T1 books Monday 09:00-10:00. -/
def c9SchedA : Schedule := mkSchedule "A" [mkSession "sa" "T1" 540 600]

/-- A schedule with a 07:00-07:30 Monday booking for T1 — outside the
08:00-17:00 work window. -/
def c10Sched : Schedule := mkSchedule "C" [mkSession "sc" "T1" 420 450]

/-- A schedule with a 09:00-10:00 Monday booking for T1 — inside the window. -/
def c10bSched : Schedule := mkSchedule "D" [mkSession "sd" "T1" 540 600]

/-! ### C2: the public constructors always raise TypeError -/

/-- C2: for every argument tuple (and every value the nondeterministic `hash`
call may return), the public constructors of `Assignment`, `Grade` and
`Schedule` raise `TypeError`, because each slices the `int` returned by
`len(str(hash(...)))`; `max` applied to the lone float `max_points` would
likewise raise `TypeError`.  Consequently no instance of these three classes
can ever be constructed. -/
theorem public_constructors_raise_typeError :
    (∀ (hashVal now : Int) (title description subject teacher_id class_id : String)
       (due : Option Int) (mp : ℚ) (df : AssignmentDifficulty),
       Assignment.pyInit hashVal now title description subject teacher_id class_id due mp df =
         .error .typeError) ∧
    (∀ (hashVal now : Int) (student_id subject : String) (t : GradeType) (score maxs : ℚ)
       (aid tid : Option String) (comments : String),
       Grade.pyInit hashVal now student_id subject t score maxs aid tid comments =
         .error .typeError) ∧
    (∀ (hashVal now : Int) (class_id : String) (sd ed : Int) (ty : String),
       Schedule.pyInit hashVal now class_id sd ed ty = .error .typeError) ∧
    (∀ q : ℚ, pyMaxSingleFloat q = .error .typeError) :=
  ⟨fun _ _ _ _ _ _ _ _ _ _ => rfl, fun _ _ _ _ _ _ _ _ _ _ => rfl,
   fun _ _ _ _ _ _ => rfl, fun _ => rfl⟩

/-! ### C1: the derived assignment status is a priority chain -/

/-- C1: the derived status respects the priority chain of
`Assignment._update_status`: past-due with an ungraded submission gives
OVERDUE even if other submissions are graded; otherwise a nonempty submissions
map with an ungraded entry gives SUBMITTED; otherwise a nonempty, fully graded
map gives GRADED even past the due date; otherwise a PUBLISHED stored state
gives IN_PROGRESS (and later reads keep IN_PROGRESS); and derivation never
produces DRAFT or CANCELLED — those can only be the untouched stored status. -/
theorem assignment_status_priority_chain (now : Int) (a : Assignment) :
    (now > a.due_date ∧ (∃ p ∈ a.submissions, p.2.status ≠ .graded) →
      (updateStatus now a).status = .overdue) ∧
    (¬ now > a.due_date ∧ a.submissions ≠ [] ∧ (∃ p ∈ a.submissions, p.2.status ≠ .graded) →
      (updateStatus now a).status = .submitted) ∧
    (a.submissions ≠ [] ∧ (∀ p ∈ a.submissions, p.2.status = .graded) →
      (updateStatus now a).status = .graded) ∧
    (a.submissions = [] ∧ a.status = .published →
      (updateStatus now a).status = .in_progress) ∧
    (a.submissions = [] ∧ a.status = .in_progress →
      (updateStatus now a).status = .in_progress) ∧
    ((updateStatus now a).status = .draft → a.status = .draft) ∧
    ((updateStatus now a).status = .cancelled → a.status = .cancelled) := by
  have hAny : anyUngraded a = true ↔ ∃ p ∈ a.submissions, p.2.status ≠ .graded := by
    simp [anyUngraded, List.any_eq_true]
  have hAll : allGraded a = true ↔ ∀ p ∈ a.submissions, p.2.status = .graded := by
    simp [allGraded, List.all_eq_true]
  have hnone : ∀ h : a.submissions = [], ¬ anyUngraded a = true := by
    intro he h
    obtain ⟨p, hp, _⟩ := hAny.mp h
    rw [he] at hp
    exact (List.not_mem_nil p) hp
  refine ⟨?_, ?_, ?_, ?_, ?_, ?_, ?_⟩
  · rintro ⟨hd, hex⟩
    have h1 : anyUngraded a = true := hAny.mpr hex
    unfold updateStatus
    rw [if_pos ⟨hd, h1⟩]
  · rintro ⟨hnd, hne, hex⟩
    have h1 : anyUngraded a = true := hAny.mpr hex
    unfold updateStatus
    rw [if_neg (fun h => hnd h.1), if_pos ⟨hne, h1⟩]
  · rintro ⟨hne, hall⟩
    have h2 : allGraded a = true := hAll.mpr hall
    have hna : ¬ anyUngraded a = true := by
      intro h
      obtain ⟨p, hp, hps⟩ := hAny.mp h
      exact hps (hall p hp)
    unfold updateStatus
    rw [if_neg (fun h => hna h.2), if_neg (fun h => hna h.2), if_pos ⟨hne, h2⟩]
  · rintro ⟨hempty, hpub⟩
    have hna := hnone hempty
    unfold updateStatus
    rw [if_neg (fun h => hna h.2), if_neg (fun h => hna h.2),
        if_neg (fun h => h.1 hempty), if_pos hpub]
  · rintro ⟨hempty, hip⟩
    have hna := hnone hempty
    unfold updateStatus
    rw [if_neg (fun h => hna h.2), if_neg (fun h => hna h.2),
        if_neg (fun h => h.1 hempty), if_neg (by rw [hip]; intro h; cases h)]
    exact hip
  · unfold updateStatus
    split_ifs <;> simp_all
  · unfold updateStatus
    split_ifs <;> simp_all

/-- Witness for C1: at time 20, past the due date 10, the mixed assignment
(one graded, one ungraded submission) derives OVERDUE. -/
theorem assignment_status_priority_chain_witness :
    (updateStatus 20 exMixed).status = .overdue :=
  (assignment_status_priority_chain 20 exMixed).1
    ⟨by decide, ⟨("s2", mkSub .submitted), by decide, by decide⟩⟩

/-! ### C8: at most one submission per student -/

/-- Embeds `_update_status` only writes the status field. -/
theorem updateStatus_submissions (now : Int) (a : Assignment) :
    (updateStatus now a).submissions = a.submissions := by
  unfold updateStatus
  split_ifs <;> rfl

/-- Appending a fresh key to an association list makes it the binding of that key. -/
theorem lookup_append_single {β : Type} (l : List (String × β)) (k : String) (v : β)
    (h : l.lookup k = none) : (l ++ [(k, v)]).lookup k = some v := by
  induction l with
  | nil => simp [List.lookup]
  | cons p t ih =>
    obtain ⟨k', v'⟩ := p
    by_cases hk : k = k'
    · simp [List.lookup, hk] at h
    · have hb : (k == k') = false := beq_eq_false_iff_ne.mpr hk
      simp only [List.cons_append, List.lookup, hb] at h ⊢
      exact ih h

/-- A key that fails to look up is absent from the key list. -/
theorem lookup_none_not_mem {β : Type} (l : List (String × β)) (k : String)
    (h : l.lookup k = none) : k ∉ l.map Prod.fst := by
  induction l with
  | nil => simp
  | cons p t ih =>
    obtain ⟨k', v'⟩ := p
    by_cases hk : k = k'
    · simp [List.lookup, hk] at h
    · have hb : (k == k') = false := beq_eq_false_iff_ne.mpr hk
      simp only [List.lookup, hb] at h
      simp only [List.map_cons, List.mem_cons, not_or]
      exact ⟨hk, ih h⟩

/-- C8: `add_submission` refuses a DRAFT assignment and a student who already
has a submission, leaving the object untouched; on success it stores a
submission with status "submitted" and no grade; the student-keyed submissions
map keeps its keys duplicate-free, so an assignment holds at most one
submission per student; and `grade_submission` requires a prior submission
from that student. -/
theorem one_submission_per_student (now : Int) (sid content : String) (atts : List String)
    (gr : ℚ) (fb : String) (a : Assignment) :
    (a.status = .draft → add_submission now sid content atts a = (false, a)) ∧
    ((a.submissions.lookup sid).isSome → add_submission now sid content atts a = (false, a)) ∧
    (a.status ≠ .draft → a.submissions.lookup sid = none →
      (add_submission now sid content atts a).1 = true ∧
      ∃ sub, (add_submission now sid content atts a).2.submissions.lookup sid = some sub ∧
        sub.status = .submitted ∧ sub.grade = none) ∧
    ((a.submissions.map Prod.fst).Nodup →
      ((add_submission now sid content atts a).2.submissions.map Prod.fst).Nodup) ∧
    (a.submissions.lookup sid = none → grade_submission now sid gr fb a = (false, a)) ∧
    ((a.submissions.lookup sid).isSome → (grade_submission now sid gr fb a).1 = true) := by
  refine ⟨?_, ?_, ?_, ?_, ?_, ?_⟩
  · intro h
    simp [add_submission, h]
  · intro h
    by_cases hd : a.status = .draft
    · simp [add_submission, hd]
    · simp [add_submission, hd, h]
  · intro hd hl
    have hres : (add_submission now sid content atts a).2.submissions =
        a.submissions ++ [(sid, { content, submitted_at := now, attachments := atts,
                                  status := .submitted, grade := none, feedback := none })] := by
      simp only [add_submission, if_neg hd, hl, Option.isSome_none, Bool.false_eq_true,
        if_false]
      rw [updateStatus_submissions]
    refine ⟨by simp [add_submission, hd, hl], ?_⟩
    rw [hres]
    exact ⟨_, lookup_append_single _ _ _ hl, rfl, rfl⟩
  · intro hnd
    unfold add_submission
    split_ifs with h1 h2
    · exact hnd
    · exact hnd
    · rw [updateStatus_submissions]
      simp only [List.map_append, List.map_cons, List.map_nil]
      rw [List.nodup_append]
      refine ⟨hnd, List.nodup_singleton sid, ?_⟩
      intro x hx hx2
      simp only [List.mem_singleton] at hx2
      subst hx2
      exact lookup_none_not_mem _ _ (Option.not_isSome_iff_eq_none.mp h2) hx
  · intro h
    simp [grade_submission, h]
  · intro h
    have hne : a.submissions.lookup sid ≠ none := by
      intro hn
      rw [hn] at h
      simp at h
    simp [grade_submission, Option.isNone_iff_eq_none, hne]

/-- Witness for C8: on a published assignment with no submissions, a first
submission succeeds and is stored as "submitted" with no grade. -/
theorem one_submission_per_student_witness :
    (add_submission 5 "s9" "essay" [] exPub).1 = true ∧
    ∃ sub, (add_submission 5 "s9" "essay" [] exPub).2.submissions.lookup "s9" = some sub ∧
      sub.status = .submitted ∧ sub.grade = none :=
  (one_submission_per_student 5 "s9" "essay" [] 0 "" exPub).2.2.1 (by decide) (by decide)

/-! ### C3: comment handling on grade update -/

/-- C3 counterexample: the caller-facing `GradeService.update_grade` replaces
the stored comments instead of appending.  Updating a grade whose history
holds two segments with the comment "third" leaves exactly "third" in the
store — not the two old segments plus a separator — so the comment count
shrinks from 2 to 1. -/
theorem service_update_replaces_comments_cex :
    (GradeService.update_grade 9 "g1" none none (some "third")
        [mkGrade "g1" 0 80 100 ("first\n---\nsecond")]).1 =
      .ok { mkGrade "g1" 0 80 100 "third" with updated_at := 9 } ∧
    (GradeService.update_grade 9 "g1" none none (some "third")
        [mkGrade "g1" 0 80 100 ("first\n---\nsecond")]).2 =
      [{ mkGrade "g1" 0 80 100 "third" with updated_at := 9 }] ∧
    commentSegments "third" < commentSegments ("first\n---\nsecond") := by
  decide

/-- C3 (amended): the model-level `Grade.update_grade` appends a non-None
comment to nonempty stored comments after a `"\n---\n"` separator (and sets it
outright when the stored comments are empty), so the previous comments always
remain a prefix of the new value, and `updated_at` is bumped; the service-level
`GradeService.update_grade`, by contrast, replaces the stored comments with the
provided value (and also bumps `updated_at`). -/
theorem update_grade_comments_semantics (now : Int) (ns : Option ℚ) (c : String)
    (fin : Option Bool) (g : Grade) :
    ((Grade.update_grade now ns (some c) fin g).comments =
        if g.comments = "" then c else g.comments ++ "\n---\n" ++ c) ∧
    (∃ t, (Grade.update_grade now ns (some c) fin g).comments = g.comments ++ t) ∧
    ((Grade.update_grade now ns (some c) fin g).updated_at = now) ∧
    (∀ (gid : String) (repo : List Grade),
        (repo.find? fun x => x.id = gid).isSome →
        ∃ g1, (GradeService.update_grade now gid none none (some c) repo).1 = .ok g1 ∧
          g1.comments = c ∧ g1.updated_at = now) := by
  refine ⟨?_, ?_, ?_, ?_⟩
  · unfold Grade.update_grade
    cases ns <;> cases fin <;> by_cases hc : g.comments = "" <;> simp [hc]
  · by_cases hc : g.comments = ""
    · refine ⟨c, ?_⟩
      unfold Grade.update_grade
      cases ns <;> cases fin <;> simp [hc]
    · refine ⟨"\n---\n" ++ c, ?_⟩
      unfold Grade.update_grade
      cases ns <;> cases fin <;> simp [hc, String.append_assoc]
  · unfold Grade.update_grade
    cases ns <;> cases fin <;> simp
  · intro gid repo hfind
    obtain ⟨g0, hg0⟩ := Option.isSome_iff_exists.mp hfind
    unfold GradeService.update_grade GradeService.updateGradeMaxBlock
      GradeService.updateGradeFinish
    rw [hg0]
    exact ⟨_, rfl, rfl, rfl⟩

/-- Witness for C3 (amended): the service-level conjunct at a concrete store. -/
theorem update_grade_comments_semantics_witness :
    ∃ g1, (GradeService.update_grade 3 "g1" none none (some "note")
        [mkGrade "g1" 0 80 100 "first"]).1 = .ok g1 ∧
      g1.comments = "note" ∧ g1.updated_at = 3 :=
  (update_grade_comments_semantics 3 none "note" none (mkGrade "g1" 0 80 100 "first")).2.2.2
    "g1" [mkGrade "g1" 0 80 100 "first"] (by decide)

/-! ### C4: the trend labels of get_student_progress -/

/-- C4: `get_student_grades` sorts newest first, so `percentages[0]` is the
newest record; the branch `percentages[0] > percentages[-1] + 5` therefore
fires for a student whose newest grade exceeds the oldest by more than 5
points — an improving student — yet labels the trend "decreasing".  The
embedded computation, evaluated at the failing input (oldest 50%, newest
100%), returns "decreasing" where the specified classification is
"increasing". -/
theorem student_progress_trend_at_failing_input :
    GradeRepository.studentProgressTrend c4Repo "s1" none = some "decreasing" ∧
    (mkGrade "g2" 2 100 100 "").percentage > (mkGrade "g1" 1 50 100 "").percentage + 5 ∧
    (mkGrade "g1" 1 50 100 "").created_at < (mkGrade "g2" 2 100 100 "").created_at := by
  have hsort : GradeRepository.get_student_grades c4Repo "s1" none none =
      [mkGrade "g2" 2 100 100 "", mkGrade "g1" 1 50 100 ""] := by decide
  refine ⟨?_, by norm_num [Grade.percentage, mkGrade], by decide⟩
  unfold GradeRepository.studentProgressTrend
  rw [hsort]
  norm_num [Grade.percentage, mkGrade, List.headD, List.getLastD]
  intro h
  simp at h

/-! ### C5: validation in record_grade -/

/-- C5 counterexample: `record_grade` only checks
`score < 0 or score > max_score` (`grade_service.py` line 51), so the call
with score 0 and max score 0 passes validation even though it violates the
grade invariant; the error the call then raises is the `TypeError` from the
id line of `Grade.__init__` — not a validation error — and the store is left
unchanged. -/
theorem record_grade_zero_max_no_validation_cex :
    GradeService.record_grade 0 0 "s1" "math" .exam 0 "t1" 0 none "" [] =
      (.raised .typeError, []) ∧
    RecordResult.raised .typeError ≠ RecordResult.validationError := by
  decide

/-- C5 (amended): `record_grade` raises its explicit validation error exactly
when `score < 0` or `score > max_score` — the condition `max_score ≤ 0` is
not itself validated, so score 0 with max score 0 passes the check; every
call that passes validation then raises `TypeError` inside `Grade.__init__`
at the id expression, and the store is left unchanged by every call, so no
grade is ever stored. -/
theorem record_grade_validation_iff (hashVal now : Int) (student subject : String)
    (t : GradeType) (score : ℚ) (teacher : String) (maxs : ℚ) (aid : Option String)
    (comments : String) (repo : List Grade) :
    ((GradeService.record_grade hashVal now student subject t score teacher maxs aid
        comments repo).1 = .validationError ↔ score < 0 ∨ score > maxs) ∧
    ((GradeService.record_grade hashVal now student subject t score teacher maxs aid
        comments repo).1 = .validationError ∨
     (GradeService.record_grade hashVal now student subject t score teacher maxs aid
        comments repo).1 = .raised .typeError) ∧
    ((GradeService.record_grade hashVal now student subject t score teacher maxs aid
        comments repo).2 = repo) := by
  have hinit : Grade.pyInit hashVal now student subject t score maxs aid (some teacher)
      comments = .error .typeError := rfl
  unfold GradeService.record_grade
  rw [hinit]
  by_cases hv : score < 0 ∨ score > maxs
  · rw [if_pos hv]
    exact ⟨by simp [hv], Or.inl rfl, rfl⟩
  · rw [if_neg hv]
    exact ⟨by simp [hv], Or.inr rfl, rfl⟩

/-- Witness for C5 (amended): a negative score is rejected by the explicit
validation check. -/
theorem record_grade_validation_iff_witness :
    (GradeService.record_grade 0 1 "s1" "math" .exam (-5) "t1" 100 none "" []).1 =
      .validationError :=
  (record_grade_validation_iff 0 1 "s1" "math" .exam (-5) "t1" 100 none "" []).1.mpr
    (by norm_num)

/-! ### C6: atomicity of update_grade on validation failure -/

/-- Writing back to an id held by no record is the identity on the store. -/
theorem setGrade_absent (tl : List Grade) (gid : String) (g : Grade)
    (h : ∀ y ∈ tl, y.id ≠ gid) : setGrade tl gid g = tl := by
  induction tl with
  | nil => rfl
  | cons x t ih =>
    unfold setGrade
    simp only [List.map_cons]
    rw [if_neg (h x (List.mem_cons_self x t))]
    have ht := ih (fun y hy => h y (List.mem_cons_of_mem x hy))
    unfold setGrade at ht
    rw [ht]

/-- Writing back the value already stored under the id is the identity,
provided ids are duplicate-free. -/
theorem setGrade_self (repo : List Grade) (gid : String) (g0 : Grade)
    (hnd : (repo.map (fun g => g.id)).Nodup)
    (hf : repo.find? (fun g => g.id = gid) = some g0) : setGrade repo gid g0 = repo := by
  induction repo with
  | nil => simp [List.find?] at hf
  | cons x t ih =>
    simp only [List.map_cons, List.nodup_cons] at hnd
    by_cases hx : x.id = gid
    · have hx0 : x = g0 := by
        rw [List.find?_cons_of_pos _ (by simpa using hx)] at hf
        exact Option.some.inj hf
      have habs : ∀ y ∈ t, y.id ≠ gid := by
        intro y hy he
        apply hnd.1
        rw [hx, ← he]
        exact List.mem_map_of_mem (fun g => g.id) hy
      have ht := setGrade_absent t gid g0 habs
      unfold setGrade at ht ⊢
      simp only [List.map_cons, if_pos hx, ht]
      rw [← hx0]
    · rw [List.find?_cons_of_neg _ (by simpa using hx)] at hf
      have ht := ih hnd.2 hf
      unfold setGrade at ht ⊢
      simp only [List.map_cons, if_neg hx, ht]

/-- Outcome and final store of the max-score block: it raises exactly when a
provided max score is nonpositive or smaller than a provided score, and a
raise leaves the store holding `g` — the object as already mutated by the
preceding score block. -/
theorem updateGradeMaxBlock_spec (now : Int) (gid : String) (sv ms : Option ℚ)
    (c : Option String) (g : Grade) (repo : List Grade) :
    ((GradeService.updateGradeMaxBlock now gid sv ms c g repo).1 = .validationError ↔
      ∃ m, ms = some m ∧ (m ≤ 0 ∨ ∃ v, sv = some v ∧ v > m)) ∧
    ((GradeService.updateGradeMaxBlock now gid sv ms c g repo).1 = .validationError →
      (GradeService.updateGradeMaxBlock now gid sv ms c g repo).2 = setGrade repo gid g) := by
  cases ms with
  | none =>
    simp only [GradeService.updateGradeMaxBlock, GradeService.updateGradeFinish]
    simp
  | some m =>
    by_cases hm : m ≤ 0
    · simp only [GradeService.updateGradeMaxBlock, if_pos hm]
      simp [hm]
    · cases sv with
      | none =>
        simp only [GradeService.updateGradeMaxBlock, if_neg hm,
          GradeService.updateGradeFinish]
        simp [hm]
      | some v =>
        by_cases hv : v > m
        · simp only [GradeService.updateGradeMaxBlock, if_neg hm, if_pos hv]
          simp [hm, hv]
        · simp only [GradeService.updateGradeMaxBlock, if_neg hm, if_neg hv,
            GradeService.updateGradeFinish]
          simp [hm, hv]

/-- C6 counterexample: with score 0 and max score 0 on a stored grade of
80/100, `update_grade` raises, yet the score of the stored record has already been
overwritten with 0 — the mutation precedes the raise. -/
theorem update_grade_partial_mutation_cex :
    (GradeService.update_grade 9 "g1" (some 0) (some 0) none
        [mkGrade "g1" 0 80 100 "keep"]).1 = .validationError ∧
    (GradeService.update_grade 9 "g1" (some 0) (some 0) none
        [mkGrade "g1" 0 80 100 "keep"]).2 =
      [{ mkGrade "g1" 0 80 100 "keep" with score := 0 }] ∧
    ({ mkGrade "g1" 0 80 100 "keep" with score := 0 }).score ≠
      (mkGrade "g1" 0 80 100 "keep").score := by
  decide

/-- C6 (amended): a validation raise in `update_grade` leaves the store
unchanged in every case except the single combination score = 0,
max_score = 0, where the score field of the stored record has already been set to
0 when the max-score check raises. -/
theorem update_grade_atomicity (now : Int) (gid : String) (s ms : Option ℚ)
    (c : Option String) (repo : List Grade)
    (hnd : (repo.map (fun g => g.id)).Nodup)
    (herr : (GradeService.update_grade now gid s ms c repo).1 = .validationError) :
    (¬(s = some 0 ∧ ms = some 0) → (GradeService.update_grade now gid s ms c repo).2 = repo) ∧
    (∀ g0, s = some 0 → ms = some 0 → repo.find? (fun g => g.id = gid) = some g0 →
      (GradeService.update_grade now gid s ms c repo).2 =
        setGrade repo gid { g0 with score := 0 }) := by
  unfold GradeService.update_grade at herr ⊢
  cases hfind : repo.find? (fun g => g.id = gid) with
  | none =>
    rw [hfind] at herr
    simp at herr
  | some g0 =>
    rw [hfind] at herr
    cases s with
    | none =>
      simp only at herr ⊢
      obtain ⟨hiff, hrepo⟩ := updateGradeMaxBlock_spec now gid none ms c g0 repo
      obtain ⟨m, hm, hbad⟩ := hiff.mp herr
      have hm0 : m ≤ 0 := by
        rcases hbad with h | ⟨v, hv, _⟩
        · exact h
        · exact absurd hv (by simp)
      constructor
      · intro _
        rw [hrepo herr]
        exact setGrade_self repo gid g0 hnd hfind
      · intro g0' hs0
        exact absurd hs0 (by simp)
    | some sv =>
      simp only at herr ⊢
      by_cases hbad : sv < 0 ∨ sv > ms.getD g0.max_score
      · rw [if_pos hbad] at herr ⊢
        constructor
        · intro _
          rfl
        · intro g0' hs0 hms0 hf0
          have hsv : sv = 0 := by injection hs0
          have hms : ms = some 0 := hms0
          rw [hsv, hms] at hbad
          simp at hbad
      · rw [if_neg hbad] at herr ⊢
        obtain ⟨hiff, hrepo⟩ :=
          updateGradeMaxBlock_spec now gid (some sv) ms c { g0 with score := sv } repo
        obtain ⟨m, hm, hdisj⟩ := hiff.mp herr
        rw [hm] at hbad
        simp only [Option.getD_some] at hbad
        push_neg at hbad
        have hm0 : m ≤ 0 := by
          rcases hdisj with h | ⟨v, hv, hvgt⟩
          · exact h
          · have : v = sv := by injection hv.symm
            rw [this] at hvgt
            exact absurd hvgt (not_lt.mpr hbad.2)
        have hsv0 : sv = 0 := le_antisymm (le_trans hbad.2 hm0) hbad.1
        have hmeq : m = 0 := le_antisymm hm0 (le_trans hbad.1 hbad.2)
        constructor
        · intro hne
          exact absurd ⟨by rw [hsv0], by rw [hm, hmeq]⟩ hne
        · intro g0' _ _ hf0
          have hg0 : g0' = g0 := (Option.some.inj hf0).symm
          rw [hrepo herr, hg0, hsv0]

/-- Witness for C6 (amended): a raise caused by a nonpositive max score with
no score argument leaves the store exactly as it was. -/
theorem update_grade_atomicity_witness :
    (GradeService.update_grade 9 "g1" none (some 0) none
        [mkGrade "g1" 0 80 100 "keep"]).2 = [mkGrade "g1" 0 80 100 "keep"] :=
  (update_grade_atomicity 9 "g1" none (some 0) none [mkGrade "g1" 0 80 100 "keep"]
    (by decide) (by decide)).1 (by decide)

/-! ### C7: the schedule conflict invariant -/

/-- C7 counterexample: `_has_conflict` guards the teacher comparison with
`if teacher_id and ...`, and the empty string is falsy in Python, so a session
whose teacher id is `""` never conflicts with anything.  Proposing a second
`""`-teacher session over the same 09:00-10:00 Monday interval — same teacher
id, overlapping per the half-open test, as the last conjunct records — is not
treated as a conflict, and `add_class_session` does not return false leaving
the schedule unchanged: it proceeds to the session-id expression and raises
`TypeError`. -/
theorem empty_teacher_bypasses_conflict_cex :
    Schedule.has_conflict c7Sched .monday 540 600 (some "") none = false ∧
    Schedule.add_class_session 0 1 "math" "" .monday 540 600 "R1" true c7Sched =
      .error .typeError ∧
    ((mkSession "s1" "" 540 600).teacher_id = "" ∧
     (540 : Nat) < (mkSession "s1" "" 540 600).end_time ∧
     (600 : Nat) > (mkSession "s1" "" 540 600).start_time) :=
  ⟨by decide, rfl, by decide⟩

/-- C7 (amended): for a nonempty teacher id, `_has_conflict` reports a
conflict exactly when some existing same-teacher session on the day satisfies
the half-open overlap test `start < existing_end and end > existing_start`
(touching endpoints do not conflict), and on conflict `add_class_session`
returns false and leaves the schedule unchanged; for the empty teacher id the
truthiness guard skips the check entirely.  Every non-conflict call raises
`TypeError` at the session-id expression before the append, so no call ever
stores a session: whenever the method returns at all, the schedule is exactly
as before, and in particular the pairwise non-overlap of same-day sessions
sharing a nonempty teacher id is preserved. -/
theorem add_class_session_conflict_spec (hashVal now : Int) (subj t room : String)
    (rec : Bool) (day : Weekday) (s e : Nat) (sched : Schedule) (ht : t ≠ "") :
    (sched.has_conflict day s e (some t) none = true ↔
      ∃ sess ∈ sched.sessions day, sess.teacher_id = t ∧
        s < sess.end_time ∧ e > sess.start_time) ∧
    (sched.has_conflict day s e (some t) none = true →
      Schedule.add_class_session hashVal now subj t day s e room rec sched =
        .ok (false, sched)) ∧
    (sched.has_conflict day s e (some t) none = false →
      Schedule.add_class_session hashVal now subj t day s e room rec sched =
        .error .typeError) ∧
    (∀ (b : Bool) (sched' : Schedule),
      Schedule.add_class_session hashVal now subj t day s e room rec sched =
        .ok (b, sched') → sched' = sched) ∧
    ((∀ d, (sched.sessions d).Pairwise teacherDisjoint) →
      ∀ (b : Bool) (sched' : Schedule),
        Schedule.add_class_session hashVal now subj t day s e room rec sched =
          .ok (b, sched') →
        ∀ d, (sched'.sessions d).Pairwise teacherDisjoint) := by
  have hconf_iff : sched.has_conflict day s e (some t) none = true ↔
      ∃ sess ∈ sched.sessions day, sess.teacher_id = t ∧
        s < sess.end_time ∧ e > sess.start_time := by
    unfold Schedule.has_conflict
    rw [List.any_eq_true]
    constructor
    · rintro ⟨sess, hmem, hcond⟩
      refine ⟨sess, hmem, ?_⟩
      simp only [strTruthy, decide_eq_true_eq] at hcond
      by_cases hteq : sess.teacher_id = t
      · rw [if_neg (by simp), if_pos ⟨ht, by rw [hteq]⟩] at hcond
        exact ⟨hteq, of_decide_eq_true hcond⟩
      · rw [if_neg (by simp), if_neg (fun hc => hteq (Option.some.inj hc.2))] at hcond
        simp at hcond
    · rintro ⟨sess, hmem, hteq, hs, he⟩
      refine ⟨sess, hmem, ?_⟩
      simp only [strTruthy]
      rw [if_neg (by simp), if_pos ⟨by simpa using ht, by rw [hteq]⟩]
      exact decide_eq_true ⟨hs, he⟩
  have hunchanged : ∀ (b : Bool) (sched' : Schedule),
      Schedule.add_class_session hashVal now subj t day s e room rec sched =
        .ok (b, sched') → sched' = sched := by
    intro b sched' hok
    unfold Schedule.add_class_session at hok
    by_cases hcf : sched.has_conflict day s e (some t) none = true
    · rw [if_pos hcf] at hok
      simp only [Except.ok.injEq, Prod.mk.injEq] at hok
      exact hok.2.symm
    · rw [if_neg hcf] at hok
      have hok' : (Except.error PyError.typeError : Except PyError (Bool × Schedule)) =
          .ok (b, sched') := hok
      exact Except.noConfusion hok'
  refine ⟨hconf_iff, ?_, ?_, hunchanged, ?_⟩
  · intro hc
    unfold Schedule.add_class_session
    rw [if_pos hc]
  · intro hcf
    unfold Schedule.add_class_session
    rw [if_neg (by simp [hcf])]
    exact rfl
  · intro hinv b sched' hok d
    rw [hunchanged b sched' hok]
    exact hinv d

/-- Witness for C7 (amended): a 09:30-10:30 session for T1 conflicts with the
stored 09:00-10:00 session, and the add returns false leaving the schedule
unchanged. -/
theorem add_class_session_conflict_spec_witness :
    Schedule.add_class_session 0 1 "math" "T1" .monday 570 630 "R1" true c7bSched =
      .ok (false, c7bSched) :=
  (add_class_session_conflict_spec 0 1 "math" "T1" "R1" true .monday 570 630 c7bSched
      (by decide)).2.1 (by decide)

/-! ### Properties of get_conflicts

Claim C9 conditions its conclusion on a successful addSession; since every
non-conflict `add_class_session` call raises `TypeError` at the session-id
expression (see `add_class_session_conflict_spec`), no call ever succeeds and
the conditional claim is vacuous.  The read-only `get_conflicts` query itself
still has provable content over arbitrary store states, recorded here. -/

/-- A `get_conflicts` query excluding a (nonempty) class id never reports a
conflict from the own schedule of that class — a session held there never
manifests as a conflict with itself — and the result is empty exactly when no
schedule of another class holds a same-teacher session on that day
overlapping the window. -/
theorem get_conflicts_excluding_spec (repo : List Schedule) (t : String) (day : Weekday)
    (s e : Nat) (c : String) (hc : c ≠ "") :
    (∀ conf ∈ ScheduleRepository.get_conflicts repo t day s e (some c), conf.class_id ≠ c) ∧
    (ScheduleRepository.get_conflicts repo t day s e (some c) = [] ↔
      ∀ sched ∈ repo, sched.class_id ≠ c →
        ∀ sess ∈ sched.sessions day, sess.teacher_id = t →
          e ≤ sess.start_time ∨ s ≥ sess.end_time) := by
  constructor
  · intro conf hconf
    unfold ScheduleRepository.get_conflicts at hconf
    rw [List.mem_flatMap] at hconf
    obtain ⟨sched, hsched, hin⟩ := hconf
    by_cases hskip : strTruthy (some c) ∧ some sched.class_id = some c
    · rw [if_pos hskip] at hin
      simp at hin
    · rw [if_neg hskip] at hin
      rw [List.mem_filterMap] at hin
      obtain ⟨sess, hsess, hf⟩ := hin
      have hcid : conf.class_id = sched.class_id := by
        by_cases h1 : sess.teacher_id = t
        · rw [if_pos h1] at hf
          by_cases hov : ¬(e ≤ sess.start_time ∨ s ≥ sess.end_time)
          · rw [if_pos hov] at hf
            have hrc := Option.some.inj hf
            rw [← hrc]
          · rw [if_neg hov] at hf
            exact absurd hf (by simp)
        · rw [if_neg h1] at hf
          exact absurd hf (by simp)
      have hne : sched.class_id ≠ c := fun hcc => hskip ⟨by simp [strTruthy, hc], by rw [hcc]⟩
      rw [hcid]
      exact hne
  · unfold ScheduleRepository.get_conflicts
    rw [List.flatMap_eq_nil_iff]
    constructor
    · intro hall sched hsched hne sess hsess hteq
      have hinner := hall sched hsched
      rw [if_neg (fun hskip => hne (Option.some.inj hskip.2))] at hinner
      rw [List.filterMap_eq_nil_iff] at hinner
      have hval := hinner sess hsess
      rw [if_pos hteq] at hval
      by_cases hov : e ≤ sess.start_time ∨ s ≥ sess.end_time
      · exact hov
      · rw [if_pos hov] at hval
        exact absurd hval (by simp)
    · intro hall sched hsched
      by_cases hskip : strTruthy (some c) ∧ some sched.class_id = some c
      · rw [if_pos hskip]
      · rw [if_neg hskip]
        rw [List.filterMap_eq_nil_iff]
        intro sess hsess
        by_cases h1 : sess.teacher_id = t
        · rw [if_pos h1]
          have hne : sched.class_id ≠ c := fun hcc => hskip ⟨by simp [strTruthy, hc], by rw [hcc]⟩
          have hd := hall sched hsched hne sess hsess h1
          rw [if_neg (not_not_intro hd)]
        · rw [if_neg h1]

/-- Instance of the above: with class A the only schedule, a query for its own
booked window, excluding class A itself, reports no conflicts. -/
theorem get_conflicts_excluding_spec_witness :
    ScheduleRepository.get_conflicts [c9SchedA] "T1" .monday 540 600 (some "A") = [] :=
  ((get_conflicts_excluding_spec [c9SchedA] "T1" .monday 540 600 "A" (by decide)).2).mpr
    (by decide)

/-! ### C10: teacher availability -/

/-- C10 counterexample: with a session from 07:00 to 07:30 (before the work
window), the cursor walk never emits the pre-08:00 guard: the cursor moves to
07:30 and the trailing gap 07:30-17:00 is returned as an available slot.  The
slot starts before 08:00, so it is not contained in the work window, and its
union with the booked session is 07:00-17:00 rather than exactly 08:00-17:00. -/
theorem availability_out_of_window_cex :
    ScheduleRepository.get_teacher_availability [c10Sched] "T1" .monday = [(450, 1020)] ∧
    450 < work_start := by
  decide

/-- Every slot the cursor walk emits starts at or after the window start,
is nonempty, and ends by the window end — provided the booked slots lie in
the window. -/
theorem availLoop_bounds (L : List (Nat × Nat)) :
    ∀ cur, work_start ≤ cur →
    (∀ p ∈ L, work_start ≤ p.1 ∧ p.1 ≤ p.2 ∧ p.2 ≤ work_end) →
    ∀ sl ∈ availLoop cur L, work_start ≤ sl.1 ∧ sl.1 < sl.2 ∧ sl.2 ≤ work_end := by
  induction L with
  | nil =>
    intro cur hcur _ sl hsl
    unfold availLoop at hsl
    by_cases h : cur < work_end
    · rw [if_pos h] at hsl
      simp only [List.mem_singleton] at hsl
      subst hsl
      exact ⟨hcur, h, le_refl _⟩
    · rw [if_neg h] at hsl
      simp at hsl
  | cons p rest ih =>
    intro cur hcur hL sl hsl
    unfold availLoop at hsl
    have hp := hL p (List.mem_cons_self p rest)
    have hrest : ∀ q ∈ rest, work_start ≤ q.1 ∧ q.1 ≤ q.2 ∧ q.2 ≤ work_end :=
      fun q hq => hL q (List.mem_cons_of_mem p hq)
    have hp2 : work_start ≤ p.2 := le_trans hp.1 hp.2.1
    by_cases h : cur < p.1
    · rw [if_pos h] at hsl
      rcases List.mem_cons.mp hsl with heq | hmem
      · subst heq
        exact ⟨hcur, h, le_trans hp.2.1 hp.2.2⟩
      · exact ih p.2 hp2 hrest sl hmem
    · rw [if_neg h] at hsl
      exact ih p.2 hp2 hrest sl hsl

/-- Every emitted slot starts at or after any lower bound of the cursor and
of the booked ends. -/
theorem availLoop_lb (L : List (Nat × Nat)) :
    ∀ cur m, m ≤ cur → (∀ p ∈ L, m ≤ p.2) →
    ∀ sl ∈ availLoop cur L, m ≤ sl.1 := by
  induction L with
  | nil =>
    intro cur m hm _ sl hsl
    unfold availLoop at hsl
    by_cases h : cur < work_end
    · rw [if_pos h] at hsl
      simp only [List.mem_singleton] at hsl
      subst hsl
      exact hm
    · rw [if_neg h] at hsl
      simp at hsl
  | cons p rest ih =>
    intro cur m hm hL sl hsl
    unfold availLoop at hsl
    have hp2 : m ≤ p.2 := hL p (List.mem_cons_self p rest)
    have hrest : ∀ q ∈ rest, m ≤ q.2 := fun q hq => hL q (List.mem_cons_of_mem p hq)
    by_cases h : cur < p.1
    · rw [if_pos h] at hsl
      rcases List.mem_cons.mp hsl with heq | hmem
      · subst heq
        exact hm
      · exact ih p.2 m hp2 hrest sl hmem
    · rw [if_neg h] at hsl
      exact ih p.2 m hp2 hrest sl hsl

/-- The emitted slots are pairwise ordered and disjoint when the booked slots
are well-formed and sorted by start. -/
theorem availLoop_pairwise (L : List (Nat × Nat)) :
    ∀ cur, (∀ p ∈ L, p.1 ≤ p.2) → L.Pairwise (fun a b => a.1 ≤ b.1) →
    (availLoop cur L).Pairwise (fun x y => x.2 ≤ y.1) := by
  induction L with
  | nil =>
    intro cur _ _
    unfold availLoop
    by_cases h : cur < work_end
    · rw [if_pos h]
      exact List.pairwise_singleton _ _
    · rw [if_neg h]
      exact List.Pairwise.nil
  | cons p rest ih =>
    intro cur hwf hsort
    unfold availLoop
    have hwf' : ∀ q ∈ rest, q.1 ≤ q.2 := fun q hq => hwf q (List.mem_cons_of_mem p hq)
    have hsort' := (List.pairwise_cons.mp hsort).2
    have hhead := (List.pairwise_cons.mp hsort).1
    by_cases h : cur < p.1
    · rw [if_pos h]
      rw [List.pairwise_cons]
      refine ⟨?_, ih p.2 hwf' hsort'⟩
      intro y hy
      exact availLoop_lb rest p.2 p.1 (hwf p (List.mem_cons_self p rest))
        (fun q hq => le_trans (hhead q hq) (hwf' q hq)) y hy
    · rw [if_neg h]
      exact ih p.2 hwf' hsort'

/-- A minute of the work window not covered by any booked slot is covered by
an emitted slot. -/
theorem availLoop_cover (L : List (Nat × Nat)) :
    ∀ cur m, (∀ p ∈ L, p.1 ≤ p.2) → cur ≤ m → m < work_end →
    (∀ p ∈ L, ¬(p.1 ≤ m ∧ m < p.2)) →
    ∃ sl ∈ availLoop cur L, sl.1 ≤ m ∧ m < sl.2 := by
  induction L with
  | nil =>
    intro cur m _ hcm hmw _
    unfold availLoop
    rw [if_pos (lt_of_le_of_lt hcm hmw)]
    exact ⟨(cur, work_end), List.mem_singleton_self _, hcm, hmw⟩
  | cons p rest ih =>
    intro cur m hwf hcm hmw hnc
    have hwf' : ∀ q ∈ rest, q.1 ≤ q.2 := fun q hq => hwf q (List.mem_cons_of_mem p hq)
    have hnc' : ∀ q ∈ rest, ¬(q.1 ≤ m ∧ m < q.2) :=
      fun q hq => hnc q (List.mem_cons_of_mem p hq)
    have hncp := hnc p (List.mem_cons_self p rest)
    unfold availLoop
    by_cases h : cur < p.1
    · rw [if_pos h]
      by_cases hm : m < p.1
      · exact ⟨(cur, p.1), List.mem_cons_self _ _, hcm, hm⟩
      · have hp2m : p.2 ≤ m := by
          by_contra hcon
          exact hncp ⟨le_of_not_lt hm, lt_of_not_le hcon⟩
        obtain ⟨sl, hsl, hc⟩ := ih p.2 m hwf' hp2m hmw hnc'
        exact ⟨sl, List.mem_cons_of_mem _ hsl, hc⟩
    · rw [if_neg h]
      have hp1m : p.1 ≤ m := le_trans (le_of_not_lt h) hcm
      have hp2m : p.2 ≤ m := by
        by_contra hcon
        exact hncp ⟨hp1m, lt_of_not_le hcon⟩
      exact ih p.2 m hwf' hp2m hmw hnc'

/-- C10 (amended): provided every booked slot of the teacher on that day lies
within the 08:00-17:00 work window (and is well-formed), the returned
available slots are pairwise disjoint and ordered, each nonempty and
contained in the window, and a minute belongs to the window exactly when it
is covered by a returned slot or by a booked session. -/
theorem teacher_availability_spec (repo : List Schedule) (t : String) (day : Weekday)
    (hwin : ∀ p ∈ ScheduleRepository.teacherSlots repo t day,
      work_start ≤ p.1 ∧ p.1 ≤ p.2 ∧ p.2 ≤ work_end) :
    ((ScheduleRepository.get_teacher_availability repo t day).Pairwise
        (fun x y => x.2 ≤ y.1)) ∧
    (∀ sl ∈ ScheduleRepository.get_teacher_availability repo t day,
        work_start ≤ sl.1 ∧ sl.1 < sl.2 ∧ sl.2 ≤ work_end) ∧
    (∀ m : Nat, (work_start ≤ m ∧ m < work_end) ↔
      ((∃ sl ∈ ScheduleRepository.get_teacher_availability repo t day, sl.1 ≤ m ∧ m < sl.2) ∨
       (∃ p ∈ ScheduleRepository.teacherSlots repo t day, p.1 ≤ m ∧ m < p.2))) := by
  have hperm := List.perm_insertionSort bySlotStart (ScheduleRepository.teacherSlots repo t day)
  have hmem : ∀ p, p ∈ List.insertionSort bySlotStart
      (ScheduleRepository.teacherSlots repo t day) ↔
      p ∈ ScheduleRepository.teacherSlots repo t day := fun p => hperm.mem_iff
  have hwin' : ∀ p ∈ List.insertionSort bySlotStart
      (ScheduleRepository.teacherSlots repo t day),
      work_start ≤ p.1 ∧ p.1 ≤ p.2 ∧ p.2 ≤ work_end :=
    fun p hp => hwin p ((hmem p).mp hp)
  have hwf : ∀ p ∈ List.insertionSort bySlotStart
      (ScheduleRepository.teacherSlots repo t day), p.1 ≤ p.2 :=
    fun p hp => (hwin' p hp).2.1
  have hsorted : (List.insertionSort bySlotStart
      (ScheduleRepository.teacherSlots repo t day)).Pairwise (fun a b => a.1 ≤ b.1) :=
    List.sorted_insertionSort bySlotStart _
  refine ⟨?_, ?_, ?_⟩
  · exact availLoop_pairwise _ work_start hwf hsorted
  · exact availLoop_bounds _ work_start (le_refl _) hwin'
  · intro m
    constructor
    · rintro ⟨hlo, hhi⟩
      by_cases hcov : ∃ p ∈ ScheduleRepository.teacherSlots repo t day, p.1 ≤ m ∧ m < p.2
      · exact Or.inr hcov
      · push_neg at hcov
        refine Or.inl ?_
        exact availLoop_cover _ work_start m hwf hlo hhi
          (fun p hp hpc => (hcov p ((hmem p).mp hp) hpc.1).not_lt hpc.2)
    · rintro (⟨sl, hsl, h1, h2⟩ | ⟨p, hp, h1, h2⟩)
      · have hb := availLoop_bounds _ work_start (le_refl _) hwin' sl hsl
        exact ⟨le_trans hb.1 h1, lt_of_lt_of_le h2 hb.2.2⟩
      · have hb := hwin p hp
        exact ⟨le_trans hb.1 h1, lt_of_lt_of_le h2 hb.2.2⟩

/-- Witness for C10 (amended): with a single in-window 09:00-10:00 booking,
the minute 09:10 is in the window and is indeed covered — by the booked
session. -/
theorem teacher_availability_spec_witness :
    (work_start ≤ 550 ∧ 550 < work_end) ↔
      ((∃ sl ∈ ScheduleRepository.get_teacher_availability [c10bSched] "T1" .monday,
          sl.1 ≤ 550 ∧ 550 < sl.2) ∨
       (∃ p ∈ ScheduleRepository.teacherSlots [c10bSched] "T1" .monday,
          p.1 ≤ 550 ∧ 550 < p.2)) :=
  (teacher_availability_spec [c10bSched] "T1" .monday (by decide)).2.2 550

end EduPlatform
